import Mathlib

/-!
# Verification of the password-game rule engine

A shallow embedding of the rule-gating engine of the `passwordgame`
repository (`model.py` and the text-edit handling of `controller.py`),
with theorems settling the specification's claims about it.

Python strings are modelled as Lean `String` (a list of Unicode
characters).  The Python character-class builtins (`str.isdigit`,
`str.isupper`, `str.isalnum`, `str.lower`, `int(c)`) are modelled over
the character repertoire this development quantifies over — the ASCII
and Latin-1 blocks; each model's doc comment states its domain.
Fallible code (an expression that can raise) returns `Option`.
-/

namespace PasswordGame

/-! ## Python string primitives -/

/-- Models Python `needle.isPrefixOf`-style comparison used below:
`true` iff the first list is an initial segment of the second. -/
def listIsPre : List Char → List Char → Bool
  | [], _ => true
  | _ :: _, [] => false
  | a :: as, b :: bs => a == b && listIsPre as bs

/-- Models the Python substring test `needle in hay` on the underlying
character lists: scan left to right, checking at each position whether
`needle` starts there. -/
def listContainsSub (needle : List Char) : List Char → Bool
  | [] => listIsPre needle []
  | c :: t => listIsPre needle (c :: t) || listContainsSub needle t

/-- Models the Python membership test `needle in hay` for strings. -/
def pyIn (needle hay : String) : Bool :=
  listContainsSub needle.data hay.data

/-- Models Python `str.isdigit` on a single character, for the Basic
Latin and Latin-1 blocks (the character repertoire over which this
development states its theorems): the decimal digits `0`–`9` and the
superscript digits `¹`, `²`, `³` (U+00B9, U+00B2, U+00B3, which have
Unicode `Numeric_Type=Digit`) satisfy `isdigit`; no other Latin-1
character does. -/
def pyIsDigit (c : Char) : Bool :=
  ('0' ≤ c && c ≤ '9') || c == '¹' || c == '²' || c == '³'

/-- Models Python `int(c)` on a single character: succeeds exactly on
the decimal digits `0`–`9` (Unicode `Numeric_Type=Decimal`), returning
the digit's value; raises `ValueError` (here: `none`) on every other
character — in particular on the superscript digits, which satisfy
`str.isdigit` but are not decimal digits. -/
def pyIntOfChar (c : Char) : Option Nat :=
  if '0' ≤ c && c ≤ '9' then some (c.toNat - 48) else none

/-- Models Python `str.isupper` on a single character, for the ASCII
range used by this development: `A`–`Z`. -/
def pyIsUpper (c : Char) : Bool :=
  'A' ≤ c && c ≤ 'Z'

/-- Models Python `str.isalnum` on a single character, for the ASCII
range used by this development: letters and decimal digits. -/
def pyIsAlnum (c : Char) : Bool :=
  ('a' ≤ c && c ≤ 'z') || ('A' ≤ c && c ≤ 'Z') || ('0' ≤ c && c ≤ '9')

/-- Models Python `str.lower`, for the ASCII range used by this
development: maps `A`–`Z` to `a`–`z` and fixes everything else. -/
def pyLower (s : String) : String :=
  ⟨s.data.map Char.toLower⟩

/-- A character of the ASCII block. -/
def isAsciiChar (c : Char) : Bool := c.toNat < 128

/-! ## Primality (models the external `sympy.isprime` dependency) -/

/-- Models `sympy.isprime` on natural numbers (the digit sums fed to it
are naturals): trial division — `n` is prime iff `2 ≤ n` and no `m`
with `2 ≤ m < n` divides `n`.  Proved equivalent to `Nat.Prime` in
`isprime_iff_prime` below. -/
def isprime (n : Nat) : Bool :=
  decide (2 ≤ n) && (List.range (n - 2)).all fun k => decide (n % (k + 2) ≠ 0)

/-! ## The rule catalog (`GameModel.rule_*` in `model.py`) -/

/-- `rule_min_length`: `len(password) >= 5`. -/
def rule_min_length (password : String) : Bool :=
  decide (password.length ≥ 5)

/-- `rule_include_numbers`: `any(c.isdigit() for c in password)`. -/
def rule_include_numbers (password : String) : Bool :=
  password.data.any pyIsDigit

/-- `rule_include_uppercase`: `any(c.isupper() for c in password)`. -/
def rule_include_uppercase (password : String) : Bool :=
  password.data.any pyIsUpper

/-- `rule_include_special_character`: `any(not c.isalnum() for c in password)`. -/
def rule_include_special_character (password : String) : Bool :=
  password.data.any fun c => !(pyIsAlnum c)

/-- The fixed Fibonacci set of `rule_include_fibonacci` (`fib_nums`);
a Python set, so iteration order is irrelevant to the `any`. -/
def fib_nums : List Nat :=
  [0, 1, 2, 3, 5, 8, 13, 21, 34, 55, 89, 144, 233, 377, 610, 987]

/-- `rule_include_fibonacci`: `any(str(num) in password for num in fib_nums)`. -/
def rule_include_fibonacci (password : String) : Bool :=
  fib_nums.any fun num => pyIn (Nat.repr num) password

/-- `rule_include_morse`: `"." in password or "-" in password`. -/
def rule_include_morse (password : String) : Bool :=
  pyIn "." password || pyIn "-" password

/-- The month-name set of `rule_include_month` (`months`). -/
def months : List String :=
  ["january", "february", "march", "april", "may", "june", "july",
   "august", "september", "october", "november", "december"]

/-- `rule_include_month`: `any(month in password.lower() for month in months)`. -/
def rule_include_month (password : String) : Bool :=
  months.any fun month => pyIn month (pyLower password)

/-- The Roman-numeral set of `rule_include_roman_numeral` (`roman_numerals`). -/
def roman_numerals : List String :=
  ["I", "V", "X", "L", "C", "D", "M"]

/-- `rule_include_roman_numeral`:
`any(numeral in password for numeral in roman_numerals)`. -/
def rule_include_roman_numeral (password : String) : Bool :=
  roman_numerals.any fun numeral => pyIn numeral password

/-- The digit characters of a password: `(c for c in password if c.isdigit())`. -/
def digitChars (password : String) : List Char :=
  password.data.filter pyIsDigit

/-- `rule_sum_prime`: `isprime(sum(int(c) for c in password if c.isdigit()))`.
The generator applies `int` to every character passing `isdigit`; `int`
raises on a non-decimal digit character (e.g. `²`), so the rule is
fallible and returns `Option Bool`. -/
def rule_sum_prime (password : String) : Option Bool :=
  ((digitChars password).mapM pyIntOfChar).map fun vals => isprime vals.sum

/-- `rule_chess_sicilian_defense`: `"c5" in password`. -/
def rule_chess_sicilian_defense (password : String) : Bool :=
  pyIn "c5" password

/-! ## The look-and-say sequence generator
(`GameModel.next_look_and_say_sequence` in `model.py`) -/

/-- The inner/outer while loops of `next_look_and_say_sequence`, on the
remaining character list: `c` is the character of the current run and
`count` the number of its occurrences consumed so far.  When the next
character equals `c` the inner loop continues the run; otherwise the
run is emitted as `str(count) + c` and a new run starts. -/
def lasRun (c : Char) (count : Nat) : List Char → List Char
  | [] => (Nat.repr count).data ++ [c]
  | d :: rest =>
      if d = c then lasRun c (count + 1) rest
      else ((Nat.repr count).data ++ [c]) ++ lasRun d 1 rest

/-- `next_look_and_say_sequence(sequencex)`: run-length encode the
input.  The while loop never runs on an empty input, giving `""`. -/
def next_look_and_say_sequence (sequencex : String) : String :=
  match sequencex.data with
  | [] => ""
  | c :: t => ⟨lasRun c 1 t⟩

/-- The `for _ in range(num_steps)` loop of `init_look_and_say`:
iterate the generator. -/
def iterateLAS : Nat → String → String
  | 0, s => s
  | k + 1, s => iterateLAS k (next_look_and_say_sequence s)

/-! ## The engine state and `update_rules` (`GameModel` in `model.py`) -/

/-- The fields of `GameModel` that the claims concern.  `messages` is a
fixed list (below) and `rules` is determined by `next_look_and_say`
(the one closure in the catalog), so neither is stored. -/
structure GameState where
  password : String
  last_look_and_say : String
  next_look_and_say : String
  current_rule_index : Nat
  satisfied_rules : List Nat
  all_rules_satisfied : Bool
deriving DecidableEq, Repr

/-- The rule catalog `self.rules`, in source order.  Entry 7 is the
lambda `password => self.next_look_and_say in password`, the only rule
that closes over session state.  Each entry returns `Option Bool`:
`none` models a raised exception, which only `rule_sum_prime` can
produce. -/
def rules (next_look_and_say : String) : List (String → Option Bool) :=
  [fun p => some (rule_min_length p),
   fun p => some (rule_include_numbers p),
   fun p => some (rule_include_uppercase p),
   fun p => some (rule_include_special_character p),
   fun p => some (rule_include_fibonacci p),
   fun p => some (rule_include_morse p),
   fun p => some (rule_include_month p),
   fun p => some (pyIn next_look_and_say p),
   fun p => some (rule_include_roman_numeral p),
   fun p => rule_sum_prime p,
   fun p => some (rule_chess_sicilian_defense p)]

/-- The `for index, rule in enumerate(self.rules)` loop of
`update_rules`, started after the resets `satisfied_rules = []` and
`current_rule_index = 0`: on a satisfied rule the index is appended to
`satisfied_rules`; on the first unsatisfied rule `current_rule_index`
is set to its index and the loop breaks; if no rule fails the loop
completes and `current_rule_index` keeps its reset value `0`.  Returns
the final `(satisfied_rules, current_rule_index)`, or `none` when a
rule evaluation raises. -/
def evalLoop (password : String) (index : Nat) :
    List (String → Option Bool) → Option (List Nat × Nat)
  | [] => some ([], 0)
  | rule :: rest =>
      match rule password with
      | none => none
      | some true =>
          (evalLoop password (index + 1) rest).map fun st => (index :: st.1, st.2)
      | some false => some ([], index)

/-- `GameModel.update_rules`: re-evaluates all rules on the current
password and rewrites the three engine-state fields; `none` models the
exception from a raising rule escaping the method. -/
def update_rules (st : GameState) : Option GameState :=
  (evalLoop st.password 0 (rules st.next_look_and_say)).map fun r =>
    { st with
      satisfied_rules := r.1
      current_rule_index := r.2
      all_rules_satisfied :=
        decide (r.1.length = (rules st.next_look_and_say).length) }

/-- `GameModel.check_password`: `self.current_rule_index >= len(self.rules)`. -/
def check_password (st : GameState) : Bool :=
  decide (st.current_rule_index ≥ (rules st.next_look_and_say).length)

/-- `self.messages`, verbatim from `model.py`.  Entry 7 is a plain
string literal (not an f-string), so the text between the braces is
part of the stored message. -/
def messages : List String :=
  ["Password must be at least 5 characters long.",
   "Password must include a number.",
   "Password must include an uppercase letter.",
   "Password must include a special character.",
   "Password must include a number from the Fibonacci sequence.",
   "Include a Morse code character.",
   "Your password must include a month of the year.",
   "Enter the next sequence in Look-and-Say after \x7bself.last_look_and_say\x7d",
   "Your password must include a Roman numeral.",
   "The sum of all numbers in the password must be a prime number.",
   "Respond to e4 with the Sicilian Defense."]

/-- `GameModel.__init__` together with `init_look_and_say`,
parameterised by the `random.randint(3, 6)` outcome `num_steps`:
`last_look_and_say` is `num_steps` generator steps from `"1"`,
`next_look_and_say` one step further; the password is empty and the
engine state is reset. -/
def initState (num_steps : Nat) : GameState :=
  let last := iterateLAS num_steps "1"
  { password := ""
    last_look_and_say := last
    next_look_and_say := next_look_and_say_sequence last
    current_rule_index := 0
    satisfied_rules := []
    all_rules_satisfied := false }

/-! ## The controller's text edits (`GameController.handle_events`) -/

/-- The backspace branch of `handle_events`:
`if self.model.password: self.model.password = self.model.password[:-1]`
— drop the final character when non-empty, no-op otherwise. -/
def removeLastCharacter (s : String) : String :=
  if s = "" then s else ⟨s.data.dropLast⟩

/-- The states of `GameModel` reachable from initialization by text
edits (appending any character, backspace) and `update_rules` calls.
An `update_rules` call that raises crashes the program and yields no
successor state. -/
inductive Reachable : GameState → Prop
  | init (num_steps : Nat) (h3 : 3 ≤ num_steps) (h6 : num_steps ≤ 6) :
      Reachable (initState num_steps)
  | append (st : GameState) (c : Char) (h : Reachable st) :
      Reachable { st with password := st.password.push c }
  | backspace (st : GameState) (h : Reachable st) :
      Reachable { st with password := removeLastCharacter st.password }
  | update (st st' : GameState) (h : Reachable st)
      (hu : update_rules st = some st') : Reachable st'

/-! ## Spec-side definitions

These follow the specification's words (for the refinement claims),
to be compared with the definitions embedded from the source above. -/

/-- Prepends one more occurrence of a character onto a maximal-run
decomposition: when the first run has the same character it is
extended, otherwise a new run is opened in front. -/
def mergeRun (p : Char × Nat) : List (Char × Nat) → List (Char × Nat)
  | [] => [p]
  | (d, m) :: r => if p.1 = d then (p.1, p.2 + m) :: r else p :: (d, m) :: r

/-- The maximal-run decomposition of a character list, following the
spec: scanning left to right, grouping maximal runs of identical
characters, each run recorded as (character, length). -/
def runsSpec : List Char → List (Char × Nat)
  | [] => []
  | c :: t => mergeRun (c, 1) (runsSpec t)

/-- Emits, per run, the run's length in decimal digits followed by the
run's character, concatenating across runs in order. -/
def encodeRuns : List (Char × Nat) → List Char
  | [] => []
  | (c, n) :: r => (Nat.repr n).data ++ c :: encodeRuns r

/-- The run-length encoding described by the spec for the look-and-say
step: encode the maximal runs of the input, in order. -/
def rleSpec (s : String) : String :=
  ⟨encodeRuns (runsSpec s.data)⟩

/-! ## Concrete states used by the claim theorems -/

/-- The projection of a `GameState` onto the engine-state triple
(`current_rule_index`, `satisfied_rules`, `all_rules_satisfied`). -/
def engineProj (st : GameState) : Nat × List Nat × Bool :=
  (st.current_rule_index, st.satisfied_rules, st.all_rules_satisfied)

/-- The session with `num_steps = 3` (so `last_look_and_say = "1211"`
and `next_look_and_say = "111221"`) after the text has been edited to
`"May.X111221c5"` — a text on which every one of the 11 catalog
predicates holds. -/
def cexState : GameState :=
  { initState 3 with password := "May.X111221c5" }

/-- The state `update_rules` produces from `cexState`: every rule is
satisfied, yet `current_rule_index` is left at its reset value 0. -/
def cexResult : GameState :=
  { password := "May.X111221c5"
    last_look_and_say := "1211"
    next_look_and_say := "111221"
    current_rule_index := 0
    satisfied_rules := [0, 1, 2, 3, 4, 5, 6, 7, 8, 9, 10]
    all_rules_satisfied := true }

/-! ## Supporting lemmas -/

theorem isprime_iff_prime (n : Nat) : isprime n = true ↔ Nat.Prime n := by
  rw [Nat.prime_def_lt']
  simp only [isprime, Bool.and_eq_true, decide_eq_true_eq, List.all_eq_true,
    List.mem_range]
  constructor
  · rintro ⟨h2, hall⟩
    refine ⟨h2, fun m hm hmn hdvd => ?_⟩
    have hk : m - 2 < n - 2 := by omega
    have := hall (m - 2) hk
    have hm2 : m - 2 + 2 = m := by omega
    rw [hm2] at this
    exact this (Nat.dvd_iff_mod_eq_zero.mp hdvd)
  · rintro ⟨h2, hall⟩
    refine ⟨h2, fun k hk => ?_⟩
    intro hmod
    exact hall (k + 2) (by omega) (by omega)
      (Nat.dvd_iff_mod_eq_zero.mpr hmod)

theorem mergeRun_same (c : Char) (n : Nat) (rs : List (Char × Nat)) :
    mergeRun (c, n) (mergeRun (c, 1) rs) = mergeRun (c, n + 1) rs := by
  cases rs with
  | nil => simp [mergeRun]
  | cons p r =>
      obtain ⟨e, m⟩ := p
      by_cases h : c = e
      · subst h
        simp [mergeRun]
        omega
      · simp [mergeRun, h]

theorem mergeRun_ne (c d : Char) (n : Nat) (rs : List (Char × Nat))
    (h : c ≠ d) :
    mergeRun (c, n) (mergeRun (d, 1) rs) = (c, n) :: mergeRun (d, 1) rs := by
  cases rs with
  | nil => simp [mergeRun, h]
  | cons p r =>
      obtain ⟨e, m⟩ := p
      by_cases he : d = e
      · subst he
        simp [mergeRun, h]
      · simp [mergeRun, h, he]

theorem lasRun_eq_encode (t : List Char) : ∀ (c : Char) (n : Nat),
    lasRun c n t = encodeRuns (mergeRun (c, n) (runsSpec t)) := by
  induction t with
  | nil => intro c n; rfl
  | cons d rest ih =>
      intro c n
      by_cases h : d = c
      · subst h
        rw [lasRun, if_pos rfl, ih d (n + 1), runsSpec, mergeRun_same]
      · rw [lasRun, if_neg h, ih d 1, runsSpec,
          mergeRun_ne c d n (runsSpec rest) (fun hc => h hc.symm)]
        simp [encodeRuns]

theorem evalLoop_gate_bound (password : String) :
    ∀ (rs : List (String → Option Bool)) (i : Nat) (r : List Nat × Nat),
      evalLoop password i rs = some r →
      r.2 = 0 ∨ (i ≤ r.2 ∧ r.2 < i + rs.length) := by
  intro rs
  induction rs with
  | nil =>
      intro i r h
      simp only [evalLoop, Option.some_inj] at h
      left
      rw [← h]
  | cons rule rest ih =>
      intro i r h
      cases hr : rule password with
      | none => simp only [evalLoop, hr] at h; exact absurd h (by simp)
      | some b =>
          cases b with
          | false =>
              simp only [evalLoop, hr, Option.some_inj] at h
              right
              rw [← h]
              simp
          | true =>
              simp only [evalLoop, hr, Option.map_eq_some'] at h
              obtain ⟨st, hst, hr2⟩ := h
              have hb := ih (i + 1) st hst
              rw [← hr2]
              simp only [List.length_cons]
              omega

theorem evalLoop_isSome (password : String) :
    ∀ (rs : List (String → Option Bool)),
      (∀ r ∈ rs, (r password).isSome = true) →
      ∀ i, (evalLoop password i rs).isSome = true := by
  intro rs
  induction rs with
  | nil => intro _ i; rfl
  | cons rule rest ih =>
      intro h i
      cases hr : rule password with
      | none =>
          have := h rule (by simp)
          rw [hr] at this
          exact absurd this (by simp)
      | some b =>
          cases b with
          | false => simp [evalLoop, hr]
          | true =>
              simp only [evalLoop, hr, Option.isSome_map']
              exact ih (fun r hr => h r (by simp [hr])) (i + 1)

theorem mapM_pyIntOfChar_isSome (l : List Char)
    (h : ∀ c ∈ l, (pyIntOfChar c).isSome = true) :
    (l.mapM pyIntOfChar).isSome = true := by
  induction l with
  | nil => rfl
  | cons c t ih =>
      rw [List.mapM_cons]
      have hc := h c (by simp)
      cases hcv : pyIntOfChar c with
      | none => rw [hcv] at hc; exact absurd hc (by simp)
      | some v =>
          have ht := ih (fun d hd => h d (by simp [hd]))
          cases htv : t.mapM pyIntOfChar with
          | none => rw [htv] at ht; exact absurd ht (by simp)
          | some vs => simp [hcv, htv]

theorem pyIntOfChar_isSome_of_digit_ascii (c : Char)
    (hd : pyIsDigit c = true) (ha : isAsciiChar c = true) :
    (pyIntOfChar c).isSome = true := by
  simp only [pyIsDigit, Bool.or_eq_true, beq_iff_eq] at hd
  rcases hd with ((h | h) | h) | h
  · simp [pyIntOfChar, h]
  · subst h; exact absurd ha (by decide)
  · subst h; exact absurd ha (by decide)
  · subst h; exact absurd ha (by decide)

theorem rule_sum_prime_isSome_of_ascii (password : String)
    (h : password.data.all isAsciiChar = true) :
    (rule_sum_prime password).isSome = true := by
  rw [rule_sum_prime, Option.isSome_map']
  refine mapM_pyIntOfChar_isSome _ fun c hc => ?_
  rw [digitChars, List.mem_filter] at hc
  refine pyIntOfChar_isSome_of_digit_ascii c hc.2 ?_
  rw [List.all_eq_true] at h
  exact h c hc.1

theorem update_rules_gate_lt (st st' : GameState)
    (h : update_rules st = some st') : st'.current_rule_index < 11 := by
  rw [update_rules, Option.map_eq_some'] at h
  obtain ⟨r, hr, hst⟩ := h
  have hb := evalLoop_gate_bound st.password _ 0 r hr
  have hlen : (rules st.next_look_and_say).length = 11 := rfl
  rw [hlen] at hb
  rw [← hst]
  simp only []
  omega

/-! ## Claim theorems -/

/-- Claim C1 (code bug): on the session with `num_steps = 3` (so
`next_look_and_say = "111221"`) and the text `"May.X111221c5"`, every
one of the 11 catalog predicates holds, yet `update_rules` leaves
`current_rule_index` at its reset value 0 — not the catalog length 11
claimed by the spec.  The `for` loop only writes `current_rule_index`
when a rule fails, so a fully satisfying text never moves the gate. -/
theorem c1_all_rules_hold_but_gate_index_stays_zero :
    ((rules (initState 3).next_look_and_say).all
        fun r => r "May.X111221c5" == some true) = true
    ∧ (update_rules cexState).map GameState.current_rule_index = some 0
    ∧ (rules (initState 3).next_look_and_say).length = 11 := by
  refine ⟨by decide, by decide, rfl⟩

/-- Claim C2 (code bug): after `update_rules` on the all-satisfying
text of `cexState`, `check_password` (which returns
`current_rule_index >= len(rules)`) yields `false` while
`all_rules_satisfied` is `true` — the completion check and the
all-satisfied flag are not equivalent, contrary to the claim. -/
theorem c2_check_password_false_while_all_rules_satisfied :
    (update_rules cexState).map check_password = some false
    ∧ (update_rules cexState).map GameState.all_rules_satisfied = some true := by
  exact ⟨by decide, by decide⟩

/-- Claim C3 (code bug): after `update_rules` on the all-satisfying
text of `cexState`, `satisfied_rules` is all eleven indices while
`current_rule_index` is 0, so the satisfied set is not the prefix
`0 .. current_rule_index - 1` (which is empty) claimed by the spec. -/
theorem c3_satisfied_rules_not_the_gate_prefix :
    (update_rules cexState).map GameState.satisfied_rules
        = some [0, 1, 2, 3, 4, 5, 6, 7, 8, 9, 10]
    ∧ (update_rules cexState).map (fun st => List.range st.current_rule_index)
        = some []
    ∧ ([0, 1, 2, 3, 4, 5, 6, 7, 8, 9, 10] : List Nat) ≠ [] := by
  refine ⟨by decide, by decide, by decide⟩

/-- Claim C4 (counterexample): the digit-sum rule is not total.  On
the one-character text `"²"` (U+00B2, which satisfies Python's
`str.isdigit` but is rejected by `int`) `rule_sum_prime` raises
(`none`), and on a text satisfying the first nine rules and containing
`"²"`, `update_rules` itself raises. -/
theorem c4_rule_sum_prime_raises_on_superscript_two :
    rule_sum_prime "²" = none
    ∧ update_rules { cexState with password := "May.X111221c5²" } = none := by
  exact ⟨by decide, by decide⟩

/-- Claim C4 (amended): for every game state whose text is ASCII,
every one of the 11 rule predicates returns a boolean and
`update_rules` succeeds; moreover the ten predicates other than the
digit-sum rule are total for arbitrary text. -/
theorem c4_rules_total_on_ascii (st : GameState)
    (h : st.password.data.all isAsciiChar = true) :
    ((rules st.next_look_and_say).all fun r => (r st.password).isSome) = true
    ∧ ((update_rules st).isSome = true
       ∧ ∀ (seed p : String),
          (((rules seed).eraseIdx 9).all fun r => (r p).isSome) = true) := by
  have hsum := rule_sum_prime_isSome_of_ascii st.password h
  have hall : ∀ r ∈ rules st.next_look_and_say,
      (r st.password).isSome = true := by
    intro r hr
    simp only [rules, List.mem_cons] at hr
    rcases hr with rfl | rfl | rfl | rfl | rfl | rfl | rfl | rfl | rfl | rfl | rfl | hr
    · rfl
    · rfl
    · rfl
    · rfl
    · rfl
    · rfl
    · rfl
    · rfl
    · rfl
    · exact hsum
    · rfl
    · simp at hr
  refine ⟨List.all_eq_true.mpr hall, ?_, ?_⟩
  · rw [update_rules, Option.isSome_map']
    exact evalLoop_isSome st.password _ hall 0
  · intro seed p
    simp [rules, List.eraseIdx, List.all]

/-- Witness for the amended claim C4, at the session state of
`cexState` with the ASCII text `"Abc12"`. -/
theorem c4_rules_total_on_ascii_witness :
    (({ cexState with password := "Abc12" } : GameState).password.data.all
        isAsciiChar = true)
    ∧ ((rules ({ cexState with password := "Abc12" } : GameState).next_look_and_say).all
        fun r => (r ({ cexState with password := "Abc12" } : GameState).password).isSome) = true
    ∧ (update_rules { cexState with password := "Abc12" }).isSome = true :=
  ⟨by decide,
   (c4_rules_total_on_ascii { cexState with password := "Abc12" } (by decide)).1,
   (c4_rules_total_on_ascii { cexState with password := "Abc12" } (by decide)).2.1⟩

/-- Claim C5 (code bug): the stored message for rule 8 is the plain
string literal from the source (the `f`-string prefix is missing), so
on the session with `num_steps = 3` — where `last_look_and_say` is
`"1211"` — the message does not contain the session's value; the
braces hold the verbatim text `self.last_look_and_say` instead. -/
theorem c5_message_eight_not_interpolated :
    (initState 3).last_look_and_say = "1211"
    ∧ messages.get? 7 =
        some "Enter the next sequence in Look-and-Say after \x7bself.last_look_and_say\x7d"
    ∧ pyIn (initState 3).last_look_and_say
        "Enter the next sequence in Look-and-Say after \x7bself.last_look_and_say\x7d" = false := by
  refine ⟨by decide, by decide, by decide⟩

/-- Claim C6 (confirmed): the look-and-say step equals the spec's
run-length encoding — scan left to right over maximal runs of
identical characters, emit each run's length in decimal digits
followed by the run's character, in run order — and satisfies the four
example equations. -/
theorem c6_look_and_say_step_is_run_length_encoding :
    (∀ s : String, next_look_and_say_sequence s = rleSpec s)
    ∧ next_look_and_say_sequence "1" = "11"
    ∧ next_look_and_say_sequence "11" = "21"
    ∧ next_look_and_say_sequence "21" = "1211"
    ∧ next_look_and_say_sequence "1211" = "111221" := by
  refine ⟨?_, by decide, by decide, by decide, by decide⟩
  intro s
  obtain ⟨data⟩ := s
  cases data with
  | nil => rfl
  | cons c t =>
      show (⟨lasRun c 1 t⟩ : String) = ⟨encodeRuns (runsSpec (c :: t))⟩
      rw [lasRun_eq_encode t c 1, runsSpec]

/-- Claim C7 (confirmed): whenever the digit values of the text are
defined, `rule_sum_prime` holds iff their sum is a prime number; a
text with no digit characters yields `some false` (its sum 0 is not
prime); and the rule holds on `"abc978977"` (digit sum 47). -/
theorem c7_rule_sum_prime_characterisation :
    (∀ (password : String) (vals : List Nat),
        (digitChars password).mapM pyIntOfChar = some vals →
        (rule_sum_prime password = some true ↔ Nat.Prime vals.sum))
    ∧ (∀ password : String, digitChars password = [] →
        rule_sum_prime password = some false)
    ∧ rule_sum_prime "abc978977" = some true := by
  refine ⟨?_, ?_, by decide⟩
  · intro p vals h
    rw [rule_sum_prime, h, Option.map_some', Option.some_inj]
    exact isprime_iff_prime _
  · intro p h
    rw [rule_sum_prime, h]
    rfl

/-- Witness for claim C7: the digit values of `"abc978977"` are
`[9, 7, 8, 9, 7, 7]` (sum 47), and `"May"` has no digit characters. -/
theorem c7_rule_sum_prime_characterisation_witness :
    ((digitChars "abc978977").mapM pyIntOfChar = some [9, 7, 8, 9, 7, 7]
     ∧ (rule_sum_prime "abc978977" = some true ↔
          Nat.Prime ([9, 7, 8, 9, 7, 7] : List Nat).sum))
    ∧ digitChars "May" = []
    ∧ rule_sum_prime "May" = some false :=
  ⟨⟨by decide,
    c7_rule_sum_prime_characterisation.1 "abc978977" [9, 7, 8, 9, 7, 7] (by decide)⟩,
   by decide, c7_rule_sum_prime_characterisation.2.1 "May" (by decide)⟩

/-- Claim C8 (confirmed): the engine state produced by `update_rules`
is a pure function of the text and the session's puzzle value — two
states agreeing on `password` and `next_look_and_say` re-evaluate to
the same engine-state triple, regardless of any engine state carried
over — and `update_rules` is idempotent: a second call on the state a
successful call produced returns that state unchanged. -/
theorem c8_update_rules_pure_and_idempotent :
    (∀ s t : GameState, s.password = t.password →
        s.next_look_and_say = t.next_look_and_say →
        (update_rules s).map engineProj = (update_rules t).map engineProj)
    ∧ (∀ s s₁ : GameState, update_rules s = some s₁ →
        update_rules s₁ = some s₁) := by
  constructor
  · intro s t hp hn
    rw [update_rules, update_rules, hp, hn]
    cases evalLoop t.password 0 (rules t.next_look_and_say) <;> rfl
  · intro s s₁ h
    rw [update_rules, Option.map_eq_some'] at h
    obtain ⟨r, hr, hst⟩ := h
    rw [update_rules, Option.map_eq_some']
    refine ⟨r, ?_, ?_⟩
    · have hpw : s₁.password = s.password := by rw [← hst]
      have hnx : s₁.next_look_and_say = s.next_look_and_say := by rw [← hst]
      rw [hpw, hnx]
      exact hr
    · rw [← hst]

/-- Witness for claim C8: `cexState` with a stale gate index 5
re-evaluates to the same engine state as `cexState` itself, and
`update_rules` maps its own output `cexResult` to itself. -/
theorem c8_update_rules_pure_and_idempotent_witness :
    (update_rules { cexState with current_rule_index := 5 }).map engineProj
      = (update_rules cexState).map engineProj
    ∧ update_rules cexResult = some cexResult :=
  ⟨c8_update_rules_pure_and_idempotent.1
      { cexState with current_rule_index := 5 } cexState rfl rfl,
   c8_update_rules_pure_and_idempotent.2 cexState cexResult (by decide)⟩

/-- Claim C9 (confirmed): the backspace handler removes exactly the
final character of a non-empty text (every non-empty string is some
`t.push c`, and it maps to `t`) and leaves the empty text unchanged. -/
theorem c9_remove_last_character_semantics :
    (∀ (t : String) (c : Char), removeLastCharacter (t.push c) = t)
    ∧ removeLastCharacter "" = "" := by
  constructor
  · intro t c
    obtain ⟨d⟩ := t
    have hne : String.push ⟨d⟩ c ≠ "" := by
      intro hcon
      have hdata : d ++ [c] = [] := congrArg String.data hcon
      simp at hdata
    rw [removeLastCharacter, if_neg hne]
    rw [String.ext_iff]
    show (d ++ [c]).dropLast = d
    simp
  · rfl

/-- Claim C10 (confirmed): in every state reachable from
initialization by text edits and `update_rules` calls,
`current_rule_index` is strictly below the catalog length 11, so
`check_password` returns `false` and the controller's win branch is
never taken. -/
theorem c10_win_branch_unreachable (st : GameState) (h : Reachable st) :
    st.current_rule_index < 11 ∧ check_password st = false := by
  have hlt : st.current_rule_index < 11 := by
    induction h with
    | init k h3 h6 => simp [initState]
    | append st c h ih => exact ih
    | backspace st h ih => exact ih
    | update s s₁ h hu ih => exact update_rules_gate_lt s s₁ hu
  refine ⟨hlt, ?_⟩
  simp only [check_password]
  have hlen : (rules st.next_look_and_say).length = 11 := rfl
  rw [hlen]
  simp only [decide_eq_false_iff_not]
  omega

/-- Witness for claim C10, at the freshly initialized session with
`num_steps = 3`. -/
theorem c10_win_branch_unreachable_witness :
    (initState 3).current_rule_index < 11
    ∧ check_password (initState 3) = false :=
  c10_win_branch_unreachable (initState 3) (Reachable.init 3 (by decide) (by decide))

end PasswordGame
